import Mathlib

/-!
Verification of the generic doubly linked list library in `src/linked_list.c` /
`src/linked_list.h` (repository Niv20/string-c-library).

The C library stores elements of a fixed byte size in a doubly linked chain
between two permanent sentinel nodes, and keeps a `length` counter that the
mutation operations maintain by hand.  The shallow embedding below models the
observable state of a `LinkedList` handle as the sequence of element values in
the chain (head to tail) together with the bookkeeping fields of the C struct.
A NULL handle is modelled as `none : Option (LinkedList α)`; a NULL data
pointer as `none : Option α`.  Allocation is assumed to succeed (`malloc`
failure paths are not modelled), which is the standard idealisation for
functional-correctness claims.
-/

set_option linter.unusedVariables false

namespace CLinkedList

/-- Result codes of the library, from `src/linked_list.h` (enum `ListResult`). -/
inductive ListResult where
  | LIST_SUCCESS
  | LIST_ERROR_NULL_POINTER
  | LIST_ERROR_MEMORY_ALLOC
  | LIST_ERROR_INDEX_OUT_OF_BOUNDS
  | LIST_ERROR_ELEMENT_NOT_FOUND
  | LIST_ERROR_LIST_FULL
  | LIST_ERROR_OVERWRITE_DISABLED
  | LIST_ERROR_INVALID_OPERATION
  | LIST_ERROR_NO_COMPARE_FUNCTION
  | LIST_ERROR_NO_PRINT_FUNCTION
  | LIST_ERROR_NO_FREE_FUNCTION
  deriving DecidableEq

/-- Traversal direction, from `src/linked_list.h` (enum `Direction`). -/
inductive Direction where
  | START_FROM_HEAD
  | START_FROM_TAIL
  deriving DecidableEq

/-- Node ownership mode, from `src/linked_list.h` (enum `ListMemoryMode`). -/
inductive ListMemoryMode where
  | LIST_MODE_VALUE
  | LIST_MODE_POINTER
  deriving DecidableEq

/-- Observable state of a (non-NULL) `LinkedList` handle, from the struct in
`src/linked_list.h`: the chain of element values between the two sentinels
(`elems`, head to tail), and the bookkeeping fields `length`, `element_size`,
`max_size` (`UNLIMITED = 0`) and `allow_overwrite`
(`false = REJECT_NEW_WHEN_FULL`, `true = DELETE_OLD_WHEN_FULL`).  The `length`
field is modelled separately from `elems` because the C code maintains it by
explicit increments and decrements; that they agree is exactly claim C5.
The callback fields (`print_node_function`, `free_node_function`,
`copy_node_function`) do not influence the element sequence of any operation
modelled here (see claim C2 for `copy_node_function`) and are passed as
explicit arguments where an operation consults them. -/
structure LinkedList (α : Type) where
  elems : List α
  length : Nat
  element_size : Nat
  max_size : Nat
  allow_overwrite : Bool
  deriving DecidableEq

/-- Outcome of calling a C function on a possibly-NULL handle: either a result
code together with the (possibly still NULL) handle after the call, or a NULL
pointer dereference (undefined behavior, a crash in practice). -/
inductive COut (α : Type) where
  | ok : ListResult → Option (LinkedList α) → COut α
  | crash
  deriving DecidableEq

/-- Well-formedness of a handle state: the `length` field agrees with the
number of non-sentinel nodes in the chain.  Every list reachable from
`create_list` satisfies this (claim C5). -/
def WF {α : Type} (st : LinkedList α) : Prop :=
  st.length = st.elems.length

/-- The observable state produced by `create_list` (src/linked_list.c:69):
empty chain between freshly linked sentinels, `length = 0`, the given
`element_size`, `max_size = UNLIMITED` (0) and `REJECT_NEW_WHEN_FULL`. -/
def create_list (α : Type) (element_size : Nat) : LinkedList α :=
  { elems := [], length := 0, element_size := element_size,
    max_size := 0, allow_overwrite := false }

/-- Model of `get_length` (src/linked_list.c:679): `list ? list->length : 0`. -/
def get_length {α : Type} : Option (LinkedList α) → Nat
  | none => 0
  | some st => st.length

/-- Model of `is_empty` (src/linked_list.c:688): `!list || list->length == 0`. -/
def is_empty {α : Type} : Option (LinkedList α) → Bool
  | none => true
  | some st => st.length == 0

/-- State effect of `insert_head_value_internal` (src/linked_list.c:283) on a
non-NULL list with non-NULL data: `create_node_generic` allocates a private
copy of the element (`memcpy` of `element_size` bytes, the identity at the
level of element values), the node is linked right after the head sentinel and
`length` is incremented.  No capacity check is performed. -/
def insert_head_value_impl {α : Type} (st : LinkedList α) (data : α) :
    ListResult × LinkedList α :=
  (.LIST_SUCCESS, { st with elems := data :: st.elems, length := st.length + 1 })

/-- State effect of `insert_tail_value_internal` (src/linked_list.c:306):
the new node is linked right before the tail sentinel and `length` is
incremented.  No capacity check is performed. -/
def insert_tail_value_impl {α : Type} (st : LinkedList α) (data : α) :
    ListResult × LinkedList α :=
  (.LIST_SUCCESS, { st with elems := st.elems ++ [data], length := st.length + 1 })

/-- State effect of `insert_index_value_internal` (src/linked_list.c:330) on a
non-NULL list: index 0 delegates to the head insert, `index >= length` to the
tail insert, otherwise the chain node at position `index` is located (walking
forward from the head or backward from the tail, both landing on position
`index` of the chain when the list is well formed) and the new node is spliced
in before it. -/
def insert_index_value_impl {α : Type} (st : LinkedList α) (index : Nat) (data : α) :
    ListResult × LinkedList α :=
  if index = 0 then insert_head_value_impl st data
  else if st.length ≤ index then insert_tail_value_impl st data
  else (.LIST_SUCCESS,
    { st with elems := st.elems.take index ++ data :: st.elems.drop index,
              length := st.length + 1 })

/-- State effect of `insert_head_ptr` (src/linked_list.c:379): identical chain
effect to the value insert; the node stores the caller's pointer (mode
`LIST_MODE_POINTER`) instead of a private copy, which does not change the
element value observed in the chain. -/
def insert_head_ptr_impl {α : Type} (st : LinkedList α) (data : α) :
    ListResult × LinkedList α :=
  insert_head_value_impl st data

/-- State effect of `insert_tail_ptr` (src/linked_list.c:403). -/
def insert_tail_ptr_impl {α : Type} (st : LinkedList α) (data : α) :
    ListResult × LinkedList α :=
  insert_tail_value_impl st data

/-- State effect of `insert_index_ptr` (src/linked_list.c:428); the C guard is
`index <= 0`, equal to `index == 0` for the unsigned `size_t` index. -/
def insert_index_ptr_impl {α : Type} (st : LinkedList α) (index : Nat) (data : α) :
    ListResult × LinkedList α :=
  insert_index_value_impl st index data

/-- State effect of `delete_head` (src/linked_list.c:520) on a non-NULL list:
empty list (`is_empty`, i.e. `length == 0`) is rejected with
`LIST_ERROR_INVALID_OPERATION`; otherwise `delete_node_core`
(src/linked_list.c:480) unlinks `head->next`, frees it and decrements
`length`.  If the chain is empty although the `length` field is non-zero (an
ill-formed state), `head->next` is the tail sentinel and `delete_node_core`
rejects it with `LIST_ERROR_INVALID_OPERATION`. -/
def delete_head_impl {α : Type} (st : LinkedList α) : ListResult × LinkedList α :=
  if st.length = 0 then (.LIST_ERROR_INVALID_OPERATION, st)
  else
    match st.elems with
    | [] => (.LIST_ERROR_INVALID_OPERATION, st)
    | _ :: rest => (.LIST_SUCCESS, { st with elems := rest, length := st.length - 1 })

/-- State effect of `delete_tail` (src/linked_list.c:535): as `delete_head`
but on `tail->prev`, the last chain node. -/
def delete_tail_impl {α : Type} (st : LinkedList α) : ListResult × LinkedList α :=
  if st.length = 0 then (.LIST_ERROR_INVALID_OPERATION, st)
  else
    match st.elems with
    | [] => (.LIST_ERROR_INVALID_OPERATION, st)
    | _ :: _ => (.LIST_SUCCESS,
        { st with elems := st.elems.dropLast, length := st.length - 1 })

/-- State effect of `delete_index` (src/linked_list.c:550) on a non-NULL list.
The check order in the source is: `is_empty` (returning
`LIST_ERROR_INVALID_OPERATION`), then `index >= list->length` (returning
`LIST_ERROR_INDEX_OUT_OF_BOUNDS`), then the bidirectional walk locates the
chain node at position `index` and `delete_node_core` removes it. -/
def delete_index_impl {α : Type} (st : LinkedList α) (index : Nat) :
    ListResult × LinkedList α :=
  if st.length = 0 then (.LIST_ERROR_INVALID_OPERATION, st)
  else if st.length ≤ index then (.LIST_ERROR_INDEX_OUT_OF_BOUNDS, st)
  else (.LIST_SUCCESS, { st with elems := st.elems.eraseIdx index, length := st.length - 1 })

/-- Scan loop of `remove_advanced` (src/linked_list.c:605): visit the chain
nodes in order, stopping when `count` deletions were made (a `count` of
`DELETE_ALL_OCCURRENCES = -1` never stops early); each node whose data
satisfies the predicate is deleted via `delete_node_core` (the next node to
visit is captured before the deletion).  Returns the surviving elements and
the final `removed_count`. -/
def remove_scan {α : Type} (pred : α → Bool) (count : Int) :
    List α → Int → List α × Int
  | [], removed => ([], removed)
  | a :: rest, removed =>
    if count = -1 ∨ removed < count then
      if pred a then remove_scan pred count rest (removed + 1)
      else
        let res := remove_scan pred count rest removed
        (a :: res.1, res.2)
    else (a :: rest, removed)

/-- State effect of `remove_advanced` (src/linked_list.c:586) on a non-NULL
list: NULL predicate is rejected with `LIST_ERROR_INVALID_OPERATION`, an empty
list with `LIST_ERROR_ELEMENT_NOT_FOUND`; otherwise the list is scanned from
the head or from the tail, deleting up to `count` matches (each deletion
decrements `length`), and the call succeeds iff at least one node was
removed. -/
def remove_advanced_impl {α : Type} (st : LinkedList α) (count : Int)
    (order : Direction) (pred : Option (α → Bool)) : ListResult × LinkedList α :=
  match pred with
  | none => (.LIST_ERROR_INVALID_OPERATION, st)
  | some p =>
    if st.length = 0 then (.LIST_ERROR_ELEMENT_NOT_FOUND, st)
    else
      match order with
      | .START_FROM_HEAD =>
        let res := remove_scan p count st.elems 0
        ((if 0 < res.2 then .LIST_SUCCESS else .LIST_ERROR_ELEMENT_NOT_FOUND),
         { st with elems := res.1, length := st.length - res.2.toNat })
      | .START_FROM_TAIL =>
        let res := remove_scan p count st.elems.reverse 0
        ((if 0 < res.2 then .LIST_SUCCESS else .LIST_ERROR_ELEMENT_NOT_FOUND),
         { st with elems := res.1.reverse, length := st.length - res.2.toNat })

/-- State effect of `clear` (src/linked_list.c:627) on a non-NULL list:
`delete_head` is repeated until `is_empty` holds; a failing `delete_head`
(possible only when the `length` field is out of step with the chain) aborts
the loop with that error. -/
def clear_impl {α : Type} (st : LinkedList α) : ListResult × LinkedList α :=
  if st.length = 0 then (.LIST_SUCCESS, st)
  else
    match st.elems with
    | [] => (.LIST_ERROR_INVALID_OPERATION, st)
    | _ :: rest => clear_impl { st with elems := rest, length := st.length - 1 }
termination_by st.length
decreasing_by
  simp_all
  omega

/-- Eviction loop of `handle_size_limit` (src/linked_list.c:213): while
`length >= max_size`, delete from the head.  Entered only with
`max_size >= 1`; a failing `delete_head` aborts with its error. -/
def handle_size_limit_loop {α : Type} (st : LinkedList α) : ListResult × LinkedList α :=
  if st.length < st.max_size then (.LIST_SUCCESS, st)
  else if st.length = 0 then (.LIST_ERROR_INVALID_OPERATION, st)
  else
    match st.elems with
    | [] => (.LIST_ERROR_INVALID_OPERATION, st)
    | _ :: rest => handle_size_limit_loop { st with elems := rest, length := st.length - 1 }
termination_by st.length
decreasing_by
  simp_all
  omega

/-- Model of `handle_size_limit` (src/linked_list.c:199): nothing to do when
`max_size` is `UNLIMITED` (0) or `length < max_size`; otherwise the list is
at or over capacity and either the call fails with `LIST_ERROR_LIST_FULL`
(`REJECT_NEW_WHEN_FULL`) or elements are deleted from the head until
`length < max_size` (`DELETE_OLD_WHEN_FULL`).  This helper is invoked only by
`set_max_size`; no insertion function calls it. -/
def handle_size_limit {α : Type} (st : LinkedList α) : ListResult × LinkedList α :=
  if st.max_size = 0 ∨ st.length < st.max_size then (.LIST_SUCCESS, st)
  else if st.allow_overwrite = false then (.LIST_ERROR_LIST_FULL, st)
  else handle_size_limit_loop st

/-- State effect of `set_max_size` (src/linked_list.c:186) on a non-NULL list:
the configuration fields are updated first, then `handle_size_limit` runs. -/
def set_max_size_impl {α : Type} (st : LinkedList α) (max_size : Nat)
    (behavior : Bool) : ListResult × LinkedList α :=
  handle_size_limit { st with max_size := max_size, allow_overwrite := behavior }

/-- State effect of `reverse` (src/linked_list.c:1221) on a non-NULL list:
lists of length at most 1 are returned unchanged with success; otherwise the
pointer surgery (flipping every node's links, then relinking both sentinels
and the former first node) leaves the chain containing the same elements in
reverse order. -/
def reverse_impl {α : Type} (st : LinkedList α) : ListResult × LinkedList α :=
  if st.length ≤ 1 then (.LIST_SUCCESS, st)
  else (.LIST_SUCCESS, { st with elems := st.elems.reverse })

/-- Normalization of the rotation count in `rotate` (src/linked_list.c:1180):
`actual_positions = positions % (int)list->length`, the C truncated remainder
(`Int.tmod`; the cast of `length` to `int` is assumed not to overflow),
shifted into range by adding the length when negative. -/
def rotate_norm (positions : Int) (len : Nat) : Int :=
  if positions.tmod (len : Int) < 0 then positions.tmod (len : Int) + (len : Int)
  else positions.tmod (len : Int)

/-- State effect of `rotate` (src/linked_list.c:1176) on a non-NULL list.
A zero normalized count leaves the list unchanged; otherwise the walk from
`head->next` finds the node `rotate_norm` positions in, the chain is split
there and the two segments are relinked in swapped order, so the first
`rotate_norm` elements move to the back.  (The `split_point == tail` early
return cannot trigger on a well-formed list since the normalized count is
less than the length.) -/
def rotate_impl {α : Type} (st : LinkedList α) (positions : Int) :
    ListResult × LinkedList α :=
  if st.length ≤ 1 then (.LIST_SUCCESS, st)
  else if rotate_norm positions st.length = 0 then (.LIST_SUCCESS, st)
  else (.LIST_SUCCESS,
    { st with elems := st.elems.drop (rotate_norm positions st.length).toNat ++
        st.elems.take (rotate_norm positions st.length).toNat })

/-- Node lookup of `find_node_by_index` (src/linked_list.c:757): NULL on a
NULL list or an out-of-range index; otherwise the bidirectional walk (forward
from the head when `index <= length/2`, else backward from the tail) lands on
the chain node at position `index`, whose stored data is returned. -/
def find_node_by_index {α : Type} (st : LinkedList α) (index : Nat) : Option α :=
  if st.length ≤ index then none
  else st.elems[index]?

/-- Model of `get` (src/linked_list.c:789): NULL on a NULL list or
`index >= list->length`, otherwise the data pointer of the node found by
`find_node_by_index`. -/
def get {α : Type} : Option (LinkedList α) → Nat → Option α
  | none, _ => none
  | some st, index =>
    if st.length ≤ index then none
    else find_node_by_index st index

/-- One pass of the bubble sort loop in `sort_list` (src/linked_list.c:1001):
walk the chain; whenever `compare_fn(current->data, next->data) > 0` the two
data pointers are swapped and the walk continues from the node now holding the
larger element (the node that was `next`), so a large element is carried
forward.  Returns the list after the pass and the `swapped` flag. -/
def bubble_pass {α : Type} (cmp : α → α → Int) : List α → List α × Bool
  | [] => ([], false)
  | [a] => ([a], false)
  | a :: b :: rest =>
    if 0 < cmp a b then
      (b :: (bubble_pass cmp (a :: rest)).1, true)
    else
      (a :: (bubble_pass cmp (b :: rest)).1, (bubble_pass cmp (b :: rest)).2)
termination_by l => l.length

/-- Number of inverted pairs of a list under `cmp`: pairs whose first element
compares strictly greater than a later element.  This is the termination
measure of the `do ... while (swapped)` loop of `sort_list`: under a lawful
comparator every pass that swaps strictly decreases it. -/
def inversions {α : Type} (cmp : α → α → Int) : List α → Nat
  | [] => 0
  | a :: rest => rest.countP (fun b => decide (0 < cmp a b)) + inversions cmp rest

/-- The `do ... while (swapped)` loop of `sort_list` (src/linked_list.c:1001),
with an explicit pass budget: run `bubble_pass` and repeat while it swapped.
`sort_list_impl` runs it with budget `inversions cmp l + 1`; under a lawful
comparator each swapping pass strictly decreases `inversions`, so the budget
is never exhausted and the result is exactly the fixpoint the C loop reaches
(lemma `sort_passes_sorted` below). -/
def sort_passes {α : Type} (cmp : α → α → Int) : Nat → List α → List α
  | 0, l => l
  | fuel + 1, l =>
    if (bubble_pass cmp l).2 then sort_passes cmp fuel (bubble_pass cmp l).1
    else (bubble_pass cmp l).1

/-- State effect of `sort_list` (src/linked_list.c:994) on a non-NULL list
with a non-NULL comparator: lists of length at most 1 succeed unchanged,
otherwise adjacent-swap passes repeat until a pass performs no swap. -/
def sort_list_impl {α : Type} (st : LinkedList α) (cmp : α → α → Int) :
    ListResult × LinkedList α :=
  if st.length ≤ 1 then (.LIST_SUCCESS, st)
  else (.LIST_SUCCESS,
    { st with elems := sort_passes cmp (inversions cmp st.elems + 1) st.elems })

/-- Wraps a result-code/state pair of a non-NULL call as a `COut`. -/
def liftOut {α : Type} (p : ListResult × LinkedList α) : COut α :=
  .ok p.1 (some p.2)

/-- `insert_head_value_internal` on a possibly-NULL handle / data pointer:
`insert_node_core_generic` (src/linked_list.c:264) fails fast with
`LIST_ERROR_NULL_POINTER` when either is NULL. -/
def insert_head_value {α : Type} : Option (LinkedList α) → Option α → COut α
  | none, _ => .ok .LIST_ERROR_NULL_POINTER none
  | some st, none => .ok .LIST_ERROR_NULL_POINTER (some st)
  | some st, some d => liftOut (insert_head_value_impl st d)

/-- `insert_tail_value_internal` on a possibly-NULL handle / data pointer. -/
def insert_tail_value {α : Type} : Option (LinkedList α) → Option α → COut α
  | none, _ => .ok .LIST_ERROR_NULL_POINTER none
  | some st, none => .ok .LIST_ERROR_NULL_POINTER (some st)
  | some st, some d => liftOut (insert_tail_value_impl st d)

/-- `insert_index_value_internal` on a possibly-NULL handle / data pointer.
Index 0 delegates to the head insert before anything is dereferenced, but for
`index >= 1` the guard `index >= list->length` (src/linked_list.c:337) reads
`list->length` before any NULL check, so a NULL handle is dereferenced.  With
a non-NULL handle and NULL data every path reaches the NULL-data check of
`insert_node_core_generic` and fails with `LIST_ERROR_NULL_POINTER`. -/
def insert_index_value {α : Type} : Option (LinkedList α) → Nat → Option α → COut α
  | l, 0, d => insert_head_value l d
  | none, _ + 1, _ => .crash
  | some st, _ + 1, none => .ok .LIST_ERROR_NULL_POINTER (some st)
  | some st, i + 1, some d => liftOut (insert_index_value_impl st (i + 1) d)

/-- `insert_head_ptr` on a possibly-NULL handle / data pointer. -/
def insert_head_ptr {α : Type} : Option (LinkedList α) → Option α → COut α
  | none, _ => .ok .LIST_ERROR_NULL_POINTER none
  | some st, none => .ok .LIST_ERROR_NULL_POINTER (some st)
  | some st, some d => liftOut (insert_head_ptr_impl st d)

/-- `insert_tail_ptr` on a possibly-NULL handle / data pointer. -/
def insert_tail_ptr {α : Type} : Option (LinkedList α) → Option α → COut α
  | none, _ => .ok .LIST_ERROR_NULL_POINTER none
  | some st, none => .ok .LIST_ERROR_NULL_POINTER (some st)
  | some st, some d => liftOut (insert_tail_ptr_impl st d)

/-- `insert_index_ptr` on a possibly-NULL handle / data pointer; the guard
`index <= 0` equals `index == 0` for the unsigned index, and for
`index >= 1` the bound check dereferences the handle exactly as in
`insert_index_value_internal`. -/
def insert_index_ptr {α : Type} : Option (LinkedList α) → Nat → Option α → COut α
  | l, 0, d => insert_head_ptr l d
  | none, _ + 1, _ => .crash
  | some st, _ + 1, none => .ok .LIST_ERROR_NULL_POINTER (some st)
  | some st, i + 1, some d => liftOut (insert_index_ptr_impl st (i + 1) d)

/-- `delete_head` (src/linked_list.c:520) on a possibly-NULL handle. -/
def delete_head {α : Type} : Option (LinkedList α) → COut α
  | none => .ok .LIST_ERROR_NULL_POINTER none
  | some st => liftOut (delete_head_impl st)

/-- `delete_tail` (src/linked_list.c:535) on a possibly-NULL handle. -/
def delete_tail {α : Type} : Option (LinkedList α) → COut α
  | none => .ok .LIST_ERROR_NULL_POINTER none
  | some st => liftOut (delete_tail_impl st)

/-- `delete_index` (src/linked_list.c:550) on a possibly-NULL handle. -/
def delete_index {α : Type} : Option (LinkedList α) → Nat → COut α
  | none, _ => .ok .LIST_ERROR_NULL_POINTER none
  | some st, index => liftOut (delete_index_impl st index)

/-- `remove_advanced` (src/linked_list.c:586) on a possibly-NULL handle. -/
def remove_advanced {α : Type} :
    Option (LinkedList α) → Int → Direction → Option (α → Bool) → COut α
  | none, _, _, _ => .ok .LIST_ERROR_NULL_POINTER none
  | some st, count, order, pred => liftOut (remove_advanced_impl st count order pred)

/-- `clear` (src/linked_list.c:627) on a possibly-NULL handle. -/
def clear {α : Type} : Option (LinkedList α) → COut α
  | none => .ok .LIST_ERROR_NULL_POINTER none
  | some st => liftOut (clear_impl st)

/-- `set_max_size` (src/linked_list.c:186) on a possibly-NULL handle. -/
def set_max_size {α : Type} : Option (LinkedList α) → Nat → Bool → COut α
  | none, _, _ => .ok .LIST_ERROR_NULL_POINTER none
  | some st, m, b => liftOut (set_max_size_impl st m b)

/-- `reverse` (src/linked_list.c:1221) on a possibly-NULL handle. -/
def reverse {α : Type} : Option (LinkedList α) → COut α
  | none => .ok .LIST_ERROR_NULL_POINTER none
  | some st => liftOut (reverse_impl st)

/-- `rotate` (src/linked_list.c:1176) on a possibly-NULL handle.  The source
guard is `if (!list || list->length <= 1) return LIST_SUCCESS;`: a NULL
handle makes `rotate` report success, not a NULL-pointer error. -/
def rotate {α : Type} : Option (LinkedList α) → Int → COut α
  | none, _ => .ok .LIST_SUCCESS none
  | some st, positions => liftOut (rotate_impl st positions)

/-- `sort_list` (src/linked_list.c:994) on a possibly-NULL handle and
possibly-NULL comparator: the NULL-handle check precedes the comparator
check. -/
def sort_list {α : Type} : Option (LinkedList α) → Option (α → α → Int) → COut α
  | none, _ => .ok .LIST_ERROR_NULL_POINTER none
  | some st, none => .ok .LIST_ERROR_NO_COMPARE_FUNCTION (some st)
  | some st, some cmp => liftOut (sort_list_impl st cmp)

/-- Stored payload of the node built by `create_node_generic`
(src/linked_list.c:233), at byte level (elements are byte lists): in VALUE
mode the node's fresh buffer receives
`memcpy(new_node->data, data, list->element_size)`, the first `element_size`
bytes of the caller's buffer; in POINTER mode the caller's block is stored
as-is.  The list's configured `copy_node_function` is in scope (it is a field
of the list the function receives) but — exactly as in the source — it is
never consulted. -/
def create_node_generic_data (element_size : Nat)
    (copy_node_function : Option (List Nat → List Nat))
    (mode : ListMemoryMode) (data : List Nat) : List Nat :=
  match mode with
  | .LIST_MODE_VALUE => data.take element_size
  | .LIST_MODE_POINTER => data

/-- Claim C2's specified behavior for VALUE-mode insertion, following the
spec's words ("deep-copies via configured copy callback, or raw byte copy if
absent"): the stored payload is produced by the copy callback when one is
configured, and is a raw copy of `element_size` bytes only when none is. -/
def create_node_value_data_specified (element_size : Nat)
    (copy_node_function : Option (List Nat → List Nat)) (data : List Nat) : List Nat :=
  match copy_node_function with
  | some f => f data
  | none => data.take element_size

/-- Contents of a file written by the binary branch of `save_to_file`
(src/linked_list.c:1679): the header records the element count
(`list->length`) and `list->element_size`, followed by the raw bytes of every
element in chain order. -/
structure BinFile where
  saved_length : Nat
  saved_element_size : Nat
  payload : List Nat
  deriving DecidableEq

/-- Binary branch of `save_to_file` (src/linked_list.c:1679): writes
`list->length` and `list->element_size`, then `fwrite`s each element's
`element_size` bytes walking the chain head to tail. -/
def save_to_file_binary (st : LinkedList (List Nat)) : BinFile :=
  { saved_length := st.length, saved_element_size := st.element_size,
    payload := st.elems.flatten }

/-- The `fread` loop of the binary branch of `load_from_file`
(src/linked_list.c:1749): read `saved_length` elements of `element_size`
bytes each from the remaining payload.  A short read fails the whole load
(`fread` returns fewer than 1 complete member), as does a zero element size
(for which `fread` reports 0). -/
def read_elements (element_size : Nat) : Nat → List Nat → Option (List (List Nat))
  | 0, _ => some []
  | n + 1, bytes =>
    if element_size = 0 ∨ bytes.length < element_size then none
    else
      match read_elements element_size n (bytes.drop element_size) with
      | none => none
      | some rest => some (bytes.take element_size :: rest)

/-- The list built by the binary loader: starting from `create_list`, each
element read is appended with `insert_tail_value_internal`
(src/linked_list.c:1752). -/
def load_build (element_size : Nat) (es : List (List Nat)) : LinkedList (List Nat) :=
  es.foldl (fun st e => (insert_tail_value_impl st e).2) (create_list (List Nat) element_size)

/-- Binary branch of `load_from_file` (src/linked_list.c:1736): read the two
header fields, reject the file (return NULL) when the stored element size
differs from the caller's `element_size`, then read `saved_length` elements
and append each at the tail of a fresh list.  The optional callbacks only
populate the new list's callback fields and do not affect its element
sequence. -/
def load_from_file_binary (f : BinFile) (element_size : Nat) :
    Option (LinkedList (List Nat)) :=
  if f.saved_element_size ≠ element_size then none
  else
    match read_elements element_size f.saved_length f.payload with
    | none => none
    | some es => some (load_build element_size es)

/-- One mutation step for claim C5: the insert and delete operations of the
public API applied to a (non-NULL) list handle, together with `clear` and
`set_max_size` (whose eviction loop also deletes). -/
inductive Op (α : Type) where
  | insertHeadV (a : α)
  | insertTailV (a : α)
  | insertIdxV (i : Nat) (a : α)
  | insertHeadP (a : α)
  | insertTailP (a : α)
  | insertIdxP (i : Nat) (a : α)
  | deleteHead
  | deleteTail
  | deleteIdx (i : Nat)
  | removeAdv (count : Int) (dir : Direction) (pred : α → Bool)
  | clearAll
  | setMaxSize (m : Nat) (b : Bool)

/-- State reached after one operation (result codes are irrelevant to the
length invariant of claim C5). -/
def applyOp {α : Type} (st : LinkedList α) : Op α → LinkedList α
  | .insertHeadV a => (insert_head_value_impl st a).2
  | .insertTailV a => (insert_tail_value_impl st a).2
  | .insertIdxV i a => (insert_index_value_impl st i a).2
  | .insertHeadP a => (insert_head_ptr_impl st a).2
  | .insertTailP a => (insert_tail_ptr_impl st a).2
  | .insertIdxP i a => (insert_index_ptr_impl st i a).2
  | .deleteHead => (delete_head_impl st).2
  | .deleteTail => (delete_tail_impl st).2
  | .deleteIdx i => (delete_index_impl st i).2
  | .removeAdv c d p => (remove_advanced_impl st c d (some p)).2
  | .clearAll => (clear_impl st).2
  | .setMaxSize m b => (set_max_size_impl st m b).2

/-- State reached after a sequence of operations. -/
def applyOps {α : Type} (ops : List (Op α)) (st : LinkedList α) : LinkedList α :=
  ops.foldl applyOp st

/-- Claim C1's failing scenario, mirroring demo.c's "SIZE LIMITS AND OVERFLOW
BEHAVIOR" section: a fresh int list configured with `max_size = 2` and
`DELETE_OLD_WHEN_FULL`, then three tail insertions. -/
def c1_after_inserts : LinkedList Nat :=
  (insert_tail_value_impl
    (insert_tail_value_impl
      (insert_tail_value_impl
        ((set_max_size_impl (create_list Nat 4) 2 true).2) 1).2 2).2 3).2

/-- Claim C2's concrete copy callback: a deep copy that is observably not a
raw byte copy (it increments every byte). -/
def c2_copy_fn : List Nat → List Nat :=
  fun bytes => bytes.map (fun b => b + 1)

/-- Concrete well-formed three-element list used by witnesses. -/
def wlist3 : LinkedList Nat :=
  { elems := [10, 20, 30], length := 3, element_size := 4,
    max_size := 0, allow_overwrite := false }

/-- Concrete well-formed one-element list used by witnesses. -/
def wlist1 : LinkedList Nat :=
  { elems := [7], length := 1, element_size := 4,
    max_size := 0, allow_overwrite := false }

/-- Claim C9's scenario list: the ints 7, 8, 9 as little-endian 4-byte
elements. -/
def wints : LinkedList (List Nat) :=
  { elems := [[7, 0, 0, 0], [8, 0, 0, 0], [9, 0, 0, 0]], length := 3,
    element_size := 4, max_size := 0, allow_overwrite := false }

/-- Concrete unsorted list used by the claim C8 witness. -/
def wunsorted : LinkedList Nat :=
  { elems := [3, 1, 2, 1], length := 4, element_size := 4,
    max_size := 0, allow_overwrite := false }

/-- Comparator on machine integers used by witnesses (the usual
`a < b ? -1 : a > b ? 1 : 0` shape, here as a subtraction). -/
def cmp_nat : Nat → Nat → Int :=
  fun a b => (a : Int) - (b : Int)

lemma WF_insert_head_value {α : Type} (st : LinkedList α) (a : α) (h : WF st) :
    WF (insert_head_value_impl st a).2 := by
  simp [WF, insert_head_value_impl] at h ⊢
  omega

lemma WF_insert_tail_value {α : Type} (st : LinkedList α) (a : α) (h : WF st) :
    WF (insert_tail_value_impl st a).2 := by
  simp [WF, insert_tail_value_impl] at h ⊢
  omega

lemma WF_insert_index_value {α : Type} (st : LinkedList α) (i : Nat) (a : α) (h : WF st) :
    WF (insert_index_value_impl st i a).2 := by
  unfold insert_index_value_impl
  split
  · exact WF_insert_head_value st a h
  · split
    · exact WF_insert_tail_value st a h
    · simp [WF] at h ⊢
      omega

lemma WF_delete_head {α : Type} (st : LinkedList α) (h : WF st) :
    WF (delete_head_impl st).2 := by
  unfold delete_head_impl
  split
  · exact h
  · split
    · exact h
    · rename_i hel
      simp [WF, hel] at h ⊢
      omega

lemma WF_delete_tail {α : Type} (st : LinkedList α) (h : WF st) :
    WF (delete_tail_impl st).2 := by
  unfold delete_tail_impl
  split
  · exact h
  · split
    · exact h
    · rename_i hel
      simp [WF, hel] at h ⊢
      rw [h]
      simp [List.length_dropLast, hel]

lemma WF_delete_index {α : Type} (st : LinkedList α) (i : Nat) (h : WF st) :
    WF (delete_index_impl st i).2 := by
  unfold delete_index_impl
  split
  · exact h
  · split
    · exact h
    · rename_i h0 h1
      simp only [WF] at h ⊢
      rw [List.length_eraseIdx, if_pos (by omega : i < st.elems.length)]
      omega

lemma remove_scan_spec {α : Type} (p : α → Bool) (c : Int) :
    ∀ (l : List α) (removed : Int), 0 ≤ removed →
      removed ≤ (remove_scan p c l removed).2 ∧
      (remove_scan p c l removed).1.length +
        ((remove_scan p c l removed).2 - removed).toNat = l.length := by
  intro l
  induction l with
  | nil =>
    intro removed _
    simp [remove_scan]
  | cons a rest ih =>
    intro removed hr
    by_cases hc : c = -1 ∨ removed < c
    · by_cases hp : p a = true
      · have := ih (removed + 1) (by omega)
        simp only [remove_scan, if_pos hc, if_pos hp, List.length_cons]
        omega
      · have := ih removed hr
        simp only [remove_scan, if_pos hc, if_neg hp, List.length_cons]
        omega
    · simp [remove_scan, hc]

lemma WF_remove_advanced {α : Type} (st : LinkedList α) (c : Int) (d : Direction)
    (p : Option (α → Bool)) (h : WF st) : WF (remove_advanced_impl st c d p).2 := by
  unfold remove_advanced_impl
  match p with
  | none => exact h
  | some pf =>
    simp only
    split
    · exact h
    · cases d with
      | START_FROM_HEAD =>
        have hs := remove_scan_spec pf c st.elems 0 (by omega)
        simp only [WF] at h ⊢
        omega
      | START_FROM_TAIL =>
        have hs := remove_scan_spec pf c st.elems.reverse 0 (by omega)
        simp only [WF] at h ⊢
        simp only [List.length_reverse] at hs ⊢
        omega

lemma clear_impl_spec_aux {α : Type} :
    ∀ (n : Nat) (st : LinkedList α), st.length = n → WF st →
      clear_impl st = (.LIST_SUCCESS, { st with elems := [], length := 0 }) := by
  intro n
  induction n with
  | zero =>
    intro st h0 h
    have hel : st.elems = [] := by
      rw [WF, h0] at h
      exact (List.length_eq_zero.mp h.symm)
    obtain ⟨e, len, es, ms, ao⟩ := st
    simp only at h0 hel
    subst h0 hel
    rw [clear_impl]
    simp
  | succ n ih =>
    intro st h0 h
    obtain ⟨a, rest, hel⟩ : ∃ a rest, st.elems = a :: rest := by
      rw [WF, h0] at h
      cases hel : st.elems with
      | nil => rw [hel] at h; simp at h
      | cons a rest => exact ⟨a, rest, rfl⟩
    obtain ⟨e, len, es, ms, ao⟩ := st
    simp only at h0 hel
    subst h0 hel
    rw [clear_impl]
    simp only [Nat.succ_ne_zero, if_false]
    have hwf2 : WF (⟨rest, n + 1 - 1, es, ms, ao⟩ : LinkedList α) := by
      simp only [WF, List.length_cons] at h ⊢
      omega
    have h2 := ih (⟨rest, n + 1 - 1, es, ms, ao⟩ : LinkedList α) (by simp) hwf2
    simpa using h2

lemma clear_impl_spec {α : Type} (st : LinkedList α) (h : WF st) :
    clear_impl st = (.LIST_SUCCESS, { st with elems := [], length := 0 }) :=
  clear_impl_spec_aux st.length st rfl h

lemma WF_clear {α : Type} (st : LinkedList α) (h : WF st) : WF (clear_impl st).2 := by
  rw [clear_impl_spec st h]
  simp [WF]

lemma WF_handle_size_limit_loop {α : Type} (st : LinkedList α) (h : WF st) :
    WF (handle_size_limit_loop st).2 := by
  induction st using handle_size_limit_loop.induct with
  | case1 st h1 =>
    rw [handle_size_limit_loop, if_pos h1]
    exact h
  | case2 st h1 h0 =>
    rw [handle_size_limit_loop, if_neg h1, if_pos h0]
    exact h
  | case3 st h1 h0 hel =>
    rw [handle_size_limit_loop, if_neg h1, if_neg h0, hel]
    exact h
  | case4 st h1 h0 a rest hel ih =>
    rw [handle_size_limit_loop, if_neg h1, if_neg h0, hel]
    apply ih
    rw [WF, hel] at h
    simp [WF, h]

lemma WF_set_max_size {α : Type} (st : LinkedList α) (m : Nat) (b : Bool) (h : WF st) :
    WF (set_max_size_impl st m b).2 := by
  unfold set_max_size_impl handle_size_limit
  split
  · exact h
  · split
    · exact h
    · exact WF_handle_size_limit_loop _ h

lemma WF_applyOp {α : Type} (st : LinkedList α) (op : Op α) (h : WF st) :
    WF (applyOp st op) := by
  cases op with
  | insertHeadV a => exact WF_insert_head_value st a h
  | insertTailV a => exact WF_insert_tail_value st a h
  | insertIdxV i a => exact WF_insert_index_value st i a h
  | insertHeadP a => exact WF_insert_head_value st a h
  | insertTailP a => exact WF_insert_tail_value st a h
  | insertIdxP i a => exact WF_insert_index_value st i a h
  | deleteHead => exact WF_delete_head st h
  | deleteTail => exact WF_delete_tail st h
  | deleteIdx i => exact WF_delete_index st i h
  | removeAdv c d p => exact WF_remove_advanced st c d (some p) h
  | clearAll => exact WF_clear st h
  | setMaxSize m b => exact WF_set_max_size st m b h

lemma WF_applyOps {α : Type} (ops : List (Op α)) :
    ∀ st : LinkedList α, WF st → WF (applyOps ops st) := by
  induction ops with
  | nil => intro st h; exact h
  | cons op ops ih =>
    intro st h
    exact ih _ (WF_applyOp st op h)

/-- C5 (confirmed): for all sequences of insert and delete operations applied
to a list created by `create_list`, `get_length` equals the count of live
(non-sentinel) elements currently in the chain, and `is_empty` returns true
if and only if `get_length` is 0. -/
theorem get_length_counts_live_elements (α : Type) (esz : Nat) (ops : List (Op α)) :
    get_length (some (applyOps ops (create_list α esz))) =
      (applyOps ops (create_list α esz)).elems.length ∧
    (is_empty (some (applyOps ops (create_list α esz))) = true ↔
      get_length (some (applyOps ops (create_list α esz))) = 0) := by
  have hwf : WF (applyOps ops (create_list α esz)) :=
    WF_applyOps ops _ (by simp [WF, create_list])
  constructor
  · exact hwf
  · simp [is_empty, get_length]

/-- C1 (code bug, evaluation): a list configured with `max_size = 2` and the
evict-oldest policy `DELETE_OLD_WHEN_FULL` accepts three tail insertions
without ever deleting from the head: all three elements stay in insertion
order and the length 3 exceeds `max_size` 2, because no insertion function
invokes `handle_size_limit`. -/
theorem capacity_not_enforced_on_insert :
    c1_after_inserts.elems = [1, 2, 3] ∧
    c1_after_inserts.length = 3 ∧
    c1_after_inserts.max_size = 2 ∧
    c1_after_inserts.allow_overwrite = true ∧
    c1_after_inserts.max_size < c1_after_inserts.length := by
  decide

/-- C2 (code bug, evaluation): with a copy callback configured,
`create_node_generic` in VALUE mode stores the raw bytes of the caller's data
(the `memcpy` path) and not the callback's deep copy: on the one-byte element
`[5]` with a callback that increments every byte, the node stores `[5]`
whereas the specified behavior stores `[6]`. -/
theorem copy_callback_ignored_on_insert :
    create_node_generic_data 1 (some c2_copy_fn) .LIST_MODE_VALUE [5] = [5] ∧
    create_node_value_data_specified 1 (some c2_copy_fn) [5] = [6] ∧
    create_node_generic_data 1 (some c2_copy_fn) .LIST_MODE_VALUE [5] ≠
      create_node_value_data_specified 1 (some c2_copy_fn) [5] := by
  decide

/-- C3 (counterexample): `rotate` called with a NULL list handle returns
`LIST_SUCCESS`, not `LIST_ERROR_NULL_POINTER`, because its guard is
`if (!list || list->length <= 1) return LIST_SUCCESS;`. -/
theorem rotate_null_returns_success :
    rotate (none : Option (LinkedList Nat)) 1 = .ok .LIST_SUCCESS none ∧
    (COut.ok .LIST_SUCCESS none : COut Nat) ≠ .ok .LIST_ERROR_NULL_POINTER none := by
  exact ⟨rfl, by decide⟩

/-- C3 (corrected): every listed fallible operation fails fast with
`LIST_ERROR_NULL_POINTER` on a NULL list handle and, for insertions, on a
NULL data argument — except `rotate`, which returns `LIST_SUCCESS` on a NULL
handle, and the insert-at-index operations with index at least 1, which read
`list->length` from the NULL handle before any check (a crash, modelled as
`COut.crash`). -/
theorem null_arguments_fail_fast (α : Type) (st : LinkedList α) (d : α) (i : Nat)
    (k cnt : Int) (dir : Direction) (p : α → Bool) (m : Nat) (b : Bool)
    (cmp : α → α → Int) :
    insert_head_value (none : Option (LinkedList α)) (some d) = .ok .LIST_ERROR_NULL_POINTER none ∧
    insert_tail_value (none : Option (LinkedList α)) (some d) = .ok .LIST_ERROR_NULL_POINTER none ∧
    insert_head_ptr (none : Option (LinkedList α)) (some d) = .ok .LIST_ERROR_NULL_POINTER none ∧
    insert_tail_ptr (none : Option (LinkedList α)) (some d) = .ok .LIST_ERROR_NULL_POINTER none ∧
    insert_index_value (none : Option (LinkedList α)) 0 (some d) = .ok .LIST_ERROR_NULL_POINTER none ∧
    insert_index_ptr (none : Option (LinkedList α)) 0 (some d) = .ok .LIST_ERROR_NULL_POINTER none ∧
    insert_index_value (none : Option (LinkedList α)) (i + 1) (some d) = .crash ∧
    insert_index_ptr (none : Option (LinkedList α)) (i + 1) (some d) = .crash ∧
    insert_head_value (some st) none = .ok .LIST_ERROR_NULL_POINTER (some st) ∧
    insert_tail_value (some st) none = .ok .LIST_ERROR_NULL_POINTER (some st) ∧
    insert_head_ptr (some st) none = .ok .LIST_ERROR_NULL_POINTER (some st) ∧
    insert_tail_ptr (some st) none = .ok .LIST_ERROR_NULL_POINTER (some st) ∧
    insert_index_value (some st) i none = .ok .LIST_ERROR_NULL_POINTER (some st) ∧
    insert_index_ptr (some st) i none = .ok .LIST_ERROR_NULL_POINTER (some st) ∧
    delete_head (none : Option (LinkedList α)) = .ok .LIST_ERROR_NULL_POINTER none ∧
    delete_tail (none : Option (LinkedList α)) = .ok .LIST_ERROR_NULL_POINTER none ∧
    delete_index (none : Option (LinkedList α)) i = .ok .LIST_ERROR_NULL_POINTER none ∧
    remove_advanced (none : Option (LinkedList α)) cnt dir (some p) = .ok .LIST_ERROR_NULL_POINTER none ∧
    clear (none : Option (LinkedList α)) = .ok .LIST_ERROR_NULL_POINTER none ∧
    set_max_size (none : Option (LinkedList α)) m b = .ok .LIST_ERROR_NULL_POINTER none ∧
    reverse (none : Option (LinkedList α)) = .ok .LIST_ERROR_NULL_POINTER none ∧
    sort_list (none : Option (LinkedList α)) (some cmp) = .ok .LIST_ERROR_NULL_POINTER none ∧
    rotate (none : Option (LinkedList α)) k = .ok .LIST_SUCCESS none := by
  refine ⟨rfl, rfl, rfl, rfl, rfl, rfl, rfl, rfl, rfl, rfl, rfl, rfl, ?_, ?_,
    rfl, rfl, rfl, rfl, rfl, rfl, rfl, rfl, rfl⟩
  · cases i <;> rfl
  · cases i <;> rfl

/-- C4 (counterexample): on a non-NULL empty list, `delete_index` returns
`LIST_ERROR_INVALID_OPERATION` (the `is_empty` check precedes the bounds
check), not `LIST_ERROR_INDEX_OUT_OF_BOUNDS`. -/
theorem delete_index_empty_invalid_operation :
    delete_index (some (create_list Nat 4)) 0 =
      .ok .LIST_ERROR_INVALID_OPERATION (some (create_list Nat 4)) ∧
    ListResult.LIST_ERROR_INVALID_OPERATION ≠ ListResult.LIST_ERROR_INDEX_OUT_OF_BOUNDS := by
  exact ⟨rfl, by decide⟩

/-- C4 (corrected): for every non-NULL non-empty list and every index greater
than or equal to the list's length, `delete_index` returns
`LIST_ERROR_INDEX_OUT_OF_BOUNDS` and leaves the list unchanged; on an empty
list it instead returns `LIST_ERROR_INVALID_OPERATION` (for any index), also
leaving the list unchanged. -/
theorem delete_index_out_of_bounds (α : Type) (st : LinkedList α) (idx : Nat)
    (hwf : WF st) :
    (st.elems ≠ [] → st.elems.length ≤ idx →
      delete_index (some st) idx = .ok .LIST_ERROR_INDEX_OUT_OF_BOUNDS (some st)) ∧
    (st.elems = [] →
      delete_index (some st) idx = .ok .LIST_ERROR_INVALID_OPERATION (some st)) := by
  rw [WF] at hwf
  constructor
  · intro hne hle
    have h0 : ¬ st.length = 0 := by
      intro h
      rw [h] at hwf
      exact hne (List.length_eq_zero.mp hwf.symm)
    have h1 : st.length ≤ idx := by omega
    simp [delete_index, liftOut, delete_index_impl, h0, h1]
  · intro hel
    have h0 : st.length = 0 := by rw [hwf, hel]; rfl
    simp [delete_index, liftOut, delete_index_impl, h0]

/-- Witness for C4's corrected theorem at the concrete one-element list
`wlist1` and index 5. -/
theorem delete_index_out_of_bounds_witness :
    delete_index (some wlist1) 5 = .ok .LIST_ERROR_INDEX_OUT_OF_BOUNDS (some wlist1) :=
  (delete_index_out_of_bounds Nat wlist1 5 rfl).1 (by decide) (by decide)

/-- C6 (confirmed): on every non-NULL (well-formed) list, `reverse` reverses
the element order and returns `LIST_SUCCESS`, and applying it twice restores
the original list state. -/
theorem reverse_reverse_restores (α : Type) (st : LinkedList α) (hwf : WF st) :
    ∃ st1, reverse (some st) = .ok .LIST_SUCCESS (some st1) ∧
      st1.elems = st.elems.reverse ∧
      reverse (some st1) = .ok .LIST_SUCCESS (some st) := by
  by_cases h1 : st.length ≤ 1
  · refine ⟨st, ?_, ?_, ?_⟩
    · simp [reverse, liftOut, reverse_impl, h1]
    · rw [WF] at hwf
      cases hel : st.elems with
      | nil => simp
      | cons a l =>
        cases l with
        | nil => simp
        | cons b l2 =>
          rw [hel] at hwf
          simp only [List.length_cons] at hwf
          omega
    · simp [reverse, liftOut, reverse_impl, h1]
  · refine ⟨{ st with elems := st.elems.reverse }, ?_, rfl, ?_⟩
    · simp [reverse, liftOut, reverse_impl, h1]
    · have h2 : ¬ ({ st with elems := st.elems.reverse } : LinkedList α).length ≤ 1 := h1
      simp only [reverse, liftOut, reverse_impl, if_neg h2]
      obtain ⟨e, len, es, ms, ao⟩ := st
      simp

/-- Witness for C6 at the concrete three-element list `wlist3`. -/
theorem reverse_reverse_restores_witness :
    ∃ st1, reverse (some wlist3) = .ok .LIST_SUCCESS (some st1) ∧
      st1.elems = wlist3.elems.reverse ∧
      reverse (some st1) = .ok .LIST_SUCCESS (some wlist3) :=
  reverse_reverse_restores Nat wlist3 rfl

lemma neg_tmod_eq (a b : Int) : (-a).tmod b = -(a.tmod b) := by
  simp only [Int.tmod_def, Int.neg_tdiv]
  ring

lemma tmod_bounds (a b : Int) (hb : 0 < b) : -b < a.tmod b ∧ a.tmod b < b := by
  constructor
  · have h := Int.tmod_lt_of_pos (-a) hb
    rw [neg_tmod_eq] at h
    omega
  · exact Int.tmod_lt_of_pos a hb

lemma rotate_norm_props (k : Int) (n : Nat) (hn : 0 < n) :
    0 ≤ rotate_norm k n ∧ rotate_norm k n < n ∧
    (rotate_norm k n = 0 → rotate_norm (-k) n = 0) ∧
    (rotate_norm k n ≠ 0 → rotate_norm k n + rotate_norm (-k) n = n) := by
  have hb : (0 : Int) < (n : Int) := by exact_mod_cast hn
  have h1 := tmod_bounds k (n : Int) hb
  have h2 := tmod_bounds (-k) (n : Int) hb
  have hneg : (-k).tmod (n : Int) = -(k.tmod (n : Int)) := neg_tmod_eq k n
  unfold rotate_norm
  split <;> split <;> omega

lemma rotate_impl_elems {α : Type} (st : LinkedList α) (k : Int) (h1 : ¬ st.length ≤ 1)
    (hnz : rotate_norm k st.length ≠ 0) :
    rotate_impl st k = (.LIST_SUCCESS,
      { st with elems := st.elems.drop (rotate_norm k st.length).toNat ++
          st.elems.take (rotate_norm k st.length).toNat }) := by
  simp [rotate_impl, h1, hnz]

/-- C7 (confirmed): on every non-NULL (well-formed) list and every integer
`k` — negative or exceeding the length included — `rotate` by `k` followed by
`rotate` by `-k` restores the original list state, both calls returning
`LIST_SUCCESS`. -/
theorem rotate_rotate_restores (α : Type) (st : LinkedList α) (k : Int) (hwf : WF st) :
    ∃ st1, rotate (some st) k = .ok .LIST_SUCCESS (some st1) ∧
      rotate (some st1) (-k) = .ok .LIST_SUCCESS (some st) := by
  by_cases h1 : st.length ≤ 1
  · exact ⟨st, by simp [rotate, liftOut, rotate_impl, h1],
      by simp [rotate, liftOut, rotate_impl, h1]⟩
  · have hn : 0 < st.length := by omega
    obtain ⟨ha0, haub, hzero, hsum⟩ := rotate_norm_props k st.length hn
    by_cases hz : rotate_norm k st.length = 0
    · refine ⟨st, ?_, ?_⟩
      · simp [rotate, liftOut, rotate_impl, h1, hz]
      · simp [rotate, liftOut, rotate_impl, h1, hzero hz]
    · have hsum2 := hsum hz
      set a1 := (rotate_norm k st.length).toNat with ha1
      set a2 := (rotate_norm (-k) st.length).toNat with ha2
      have ha1n : a1 ≤ st.elems.length := by rw [WF] at hwf; omega
      have hn2 : a1 + a2 = st.length := by omega
      refine ⟨{ st with elems := st.elems.drop a1 ++ st.elems.take a1 }, ?_, ?_⟩
      · simp [rotate, liftOut, rotate_impl_elems st k h1 hz]
      · have hz2 : rotate_norm (-k) st.length ≠ 0 := by omega
        have h1b : ¬ ({ st with elems := st.elems.drop a1 ++ st.elems.take a1 } :
            LinkedList α).length ≤ 1 := h1
        rw [rotate]
        rw [rotate_impl_elems _ (-k) h1b hz2]
        have key : (st.elems.drop a1 ++ st.elems.take a1).drop a2 ++
            (st.elems.drop a1 ++ st.elems.take a1).take a2 = st.elems := by
          have e1 : st.elems.drop a1 ++ st.elems.take a1 = st.elems.rotate a1 :=
            (List.rotate_eq_drop_append_take ha1n).symm
          have ha2n : a2 ≤ (st.elems.rotate a1).length := by
            rw [List.length_rotate, WF] at *
            omega
          have e2 : (st.elems.rotate a1).drop a2 ++ (st.elems.rotate a1).take a2 =
              (st.elems.rotate a1).rotate a2 :=
            (List.rotate_eq_drop_append_take ha2n).symm
          rw [e1, e2, List.rotate_rotate, hn2, ← hwf.symm]
          exact List.rotate_length st.elems
        rw [key]
        obtain ⟨e, len, es, ms, ao⟩ := st
        simp [liftOut]

/-- Witness for C7 at the concrete three-element list `wlist3` and `k = -7`. -/
theorem rotate_rotate_restores_witness :
    ∃ st1, rotate (some wlist3) (-7) = .ok .LIST_SUCCESS (some st1) ∧
      rotate (some st1) (-(-7)) = .ok .LIST_SUCCESS (some wlist3) :=
  rotate_rotate_restores Nat wlist3 (-7) rfl

/-- C10 (confirmed): `get` returns NULL exactly when the handle is NULL or
the index is at least the list's length, and otherwise returns the stored
data of the element at that position. -/
theorem get_returns_element_or_null (α : Type) (st : LinkedList α) (i : Nat)
    (hwf : WF st) :
    (get (some st) i = none ↔ st.length ≤ i) ∧
    (∀ h : i < st.elems.length, get (some st) i = some (st.elems.get ⟨i, h⟩)) ∧
    get (none : Option (LinkedList α)) i = none := by
  rw [WF] at hwf
  refine ⟨?_, ?_, rfl⟩
  · by_cases hle : st.length ≤ i
    · simp [get, hle]
    · have hlt : i < st.elems.length := by omega
      simp [get, hle, find_node_by_index, List.getElem?_eq_getElem hlt]
  · intro h
    have hle : ¬ st.length ≤ i := by omega
    simp [get, hle, find_node_by_index, List.getElem?_eq_getElem h]

/-- Witness for C10 at the concrete three-element list `wlist3` and index 1. -/
theorem get_returns_element_or_null_witness :
    (get (some wlist3) 1 = none ↔ wlist3.length ≤ 1) ∧
    (∀ h : 1 < wlist3.elems.length, get (some wlist3) 1 = some (wlist3.elems.get ⟨1, h⟩)) ∧
    get (none : Option (LinkedList Nat)) 1 = none :=
  get_returns_element_or_null Nat wlist3 1 rfl

lemma load_build_go :
    ∀ (es : List (List Nat)) (st : LinkedList (List Nat)),
      (es.foldl (fun st e => (insert_tail_value_impl st e).2) st).elems = st.elems ++ es := by
  intro es
  induction es with
  | nil => intro st; simp
  | cons e es ih =>
    intro st
    simp only [List.foldl_cons]
    rw [ih]
    simp [insert_tail_value_impl]

lemma load_build_elems (esz : Nat) (es : List (List Nat)) :
    (load_build esz es).elems = es := by
  unfold load_build
  rw [load_build_go]
  simp [create_list]

lemma read_elements_flatten (esz : Nat) (hpos : 0 < esz) :
    ∀ es : List (List Nat), (∀ e ∈ es, e.length = esz) →
      read_elements esz es.length es.flatten = some es := by
  intro es
  induction es with
  | nil => intro _; rfl
  | cons e es ih =>
    intro h
    have he : e.length = esz := h e (by simp)
    have hcond : ¬ (esz = 0 ∨ (e ++ es.flatten).length < esz) := by
      simp only [List.length_append]
      omega
    simp only [List.flatten_cons, List.length_cons, read_elements, if_neg hcond]
    have htake : (e ++ es.flatten).take esz = e := by
      rw [← he]
      exact List.take_left e es.flatten
    have hdrop : (e ++ es.flatten).drop esz = es.flatten := by
      rw [← he]
      exact List.drop_left e es.flatten
    rw [hdrop, ih (fun x hx => h x (by simp [hx])), htake]

/-- C9 (confirmed): the binary branch of `save_to_file` writes a header of
element count and element size followed by each element's raw bytes in list
order; `load_from_file` in binary format rejects (returns NULL for) a file
whose stored element size differs from the caller's expected one, and
otherwise rebuilds a list whose element sequence is byte-for-byte equal to
the saved list.  (Well-formedness: each stored element holds exactly
`element_size` bytes, `element_size` is positive as `sizeof` always is in C,
and the `length` field counts the chain.) -/
theorem save_load_binary_roundtrip (st : LinkedList (List Nat)) (esz2 : Nat)
    (hwf : WF st) (helems : ∀ e ∈ st.elems, e.length = st.element_size)
    (hpos : 0 < st.element_size) :
    (save_to_file_binary st).saved_length = st.length ∧
    (save_to_file_binary st).saved_element_size = st.element_size ∧
    (save_to_file_binary st).payload = st.elems.flatten ∧
    (esz2 ≠ st.element_size → load_from_file_binary (save_to_file_binary st) esz2 = none) ∧
    ∃ st2, load_from_file_binary (save_to_file_binary st) st.element_size = some st2 ∧
      st2.elems = st.elems := by
  refine ⟨rfl, rfl, rfl, ?_, ?_⟩
  · intro hne
    simp [load_from_file_binary, save_to_file_binary, Ne.symm hne]
  · refine ⟨load_build st.element_size st.elems, ?_, load_build_elems _ _⟩
    rw [WF] at hwf
    simp only [load_from_file_binary, save_to_file_binary, hwf]
    rw [read_elements_flatten st.element_size hpos st.elems helems]
    simp

lemma bubble_pass_perm {α : Type} (cmp : α → α → Int) :
    ∀ l : List α, (bubble_pass cmp l).1.Perm l := by
  intro l
  induction l using bubble_pass.induct cmp with
  | case1 => simp [bubble_pass]
  | case2 a => simp [bubble_pass]
  | case3 a b rest hc ih =>
    rw [bubble_pass, if_pos hc]
    exact (ih.cons b).trans (List.Perm.swap a b rest)
  | case4 a b rest hc ih =>
    rw [bubble_pass, if_neg hc]
    exact ih.cons a

lemma bubble_pass_false {α : Type} (cmp : α → α → Int) :
    ∀ l : List α, (bubble_pass cmp l).2 = false →
      (bubble_pass cmp l).1 = l ∧ l.Chain' (fun a b => cmp a b ≤ 0) := by
  intro l
  induction l using bubble_pass.induct cmp with
  | case1 => simp [bubble_pass]
  | case2 a => simp [bubble_pass]
  | case3 a b rest hc ih =>
    rw [bubble_pass, if_pos hc]
    intro hsw
    simp at hsw
  | case4 a b rest hc ih =>
    rw [bubble_pass, if_neg hc]
    intro hsw
    simp only at hsw
    obtain ⟨heq, hch⟩ := ih hsw
    refine ⟨by rw [heq], ?_⟩
    rw [List.chain'_cons]
    exact ⟨by omega, hch⟩

lemma bubble_pass_inversions {α : Type} (cmp : α → α → Int)
    (Hanti : ∀ a b, 0 < cmp a b → cmp b a < 0) :
    ∀ l : List α,
      inversions cmp (bubble_pass cmp l).1 ≤ inversions cmp l ∧
      ((bubble_pass cmp l).2 = true →
        inversions cmp (bubble_pass cmp l).1 < inversions cmp l) := by
  intro l
  induction l using bubble_pass.induct cmp with
  | case1 => simp [bubble_pass]
  | case2 a => simp [bubble_pass]
  | case3 a b rest hc ih =>
    rw [bubble_pass, if_pos hc]
    have hperm : ((bubble_pass cmp (a :: rest)).1).countP (fun x => decide (0 < cmp b x)) =
        ((a :: rest).countP (fun x => decide (0 < cmp b x))) :=
      (bubble_pass_perm cmp (a :: rest)).countP_eq _
    have hba : ¬ (0 < cmp b a) := by have := Hanti a b hc; omega
    have hca : (a :: rest).countP (fun x => decide (0 < cmp b x)) =
        rest.countP (fun x => decide (0 < cmp b x)) := by
      rw [List.countP_cons]
      simp [hba]
    have hcb : (b :: rest).countP (fun x => decide (0 < cmp a x)) =
        rest.countP (fun x => decide (0 < cmp a x)) + 1 := by
      rw [List.countP_cons]
      simp [hc]
    simp only [inversions, hperm, hca, hcb]
    have h1 := ih.1
    simp only [inversions] at h1
    constructor
    · omega
    · intro _
      omega
  | case4 a b rest hc ih =>
    rw [bubble_pass, if_neg hc]
    have hperm : ((bubble_pass cmp (b :: rest)).1).countP (fun x => decide (0 < cmp a x)) =
        ((b :: rest).countP (fun x => decide (0 < cmp a x))) :=
      (bubble_pass_perm cmp (b :: rest)).countP_eq _
    simp only [inversions, hperm]
    have h1 := ih.1
    have h2 := ih.2
    simp only [inversions] at h1 h2
    constructor
    · omega
    · intro hsw
      have := h2 hsw
      omega

lemma sort_passes_sorted {α : Type} (cmp : α → α → Int)
    (Hanti : ∀ a b, 0 < cmp a b → cmp b a < 0) :
    ∀ (fuel : Nat) (l : List α), inversions cmp l < fuel →
      (sort_passes cmp fuel l).Perm l ∧
      (sort_passes cmp fuel l).Chain' (fun a b => cmp a b ≤ 0) := by
  intro fuel
  induction fuel with
  | zero => intro l h; omega
  | succ n ih =>
    intro l h
    rw [sort_passes]
    by_cases hsw : (bubble_pass cmp l).2 = true
    · rw [if_pos hsw]
      have hdec := (bubble_pass_inversions cmp Hanti l).2 hsw
      have hfuel : inversions cmp (bubble_pass cmp l).1 < n := by omega
      obtain ⟨hperm, hch⟩ := ih _ hfuel
      exact ⟨hperm.trans (bubble_pass_perm cmp l), hch⟩
    · rw [if_neg hsw]
      have hfalse : (bubble_pass cmp l).2 = false := by
        cases hb : (bubble_pass cmp l).2
        · rfl
        · exact absurd hb hsw
      obtain ⟨heq, hch⟩ := bubble_pass_false cmp l hfalse
      rw [heq]
      exact ⟨List.Perm.refl l, hch⟩

lemma bubble_pass_pairwise {α : Type} (cmp : α → α → Int) (S : α → α → Prop)
    (hswap : ∀ a b, 0 < cmp a b → S b a) :
    ∀ l : List α, l.Pairwise S → (bubble_pass cmp l).1.Pairwise S := by
  intro l
  induction l using bubble_pass.induct cmp with
  | case1 => intro _; simp [bubble_pass]
  | case2 a => intro _; simp [bubble_pass]
  | case3 a b rest hc ih =>
    intro h
    rw [bubble_pass, if_pos hc]
    rw [List.pairwise_cons] at h
    obtain ⟨ha, h2⟩ := h
    rw [List.pairwise_cons] at h2
    obtain ⟨hb, hrest⟩ := h2
    simp only
    rw [List.pairwise_cons]
    constructor
    · intro y hy
      have hy2 : y ∈ a :: rest := (bubble_pass_perm cmp (a :: rest)).mem_iff.mp hy
      rcases List.mem_cons.mp hy2 with rfl | hy3
      · exact hswap y b hc
      · exact hb y hy3
    · apply ih
      rw [List.pairwise_cons]
      exact ⟨fun x hx => ha x (List.mem_cons_of_mem b hx), hrest⟩
  | case4 a b rest hc ih =>
    intro h
    rw [bubble_pass, if_neg hc]
    rw [List.pairwise_cons] at h
    obtain ⟨ha, h2⟩ := h
    simp only
    rw [List.pairwise_cons]
    constructor
    · intro y hy
      exact ha y ((bubble_pass_perm cmp (b :: rest)).mem_iff.mp hy)
    · exact ih h2

lemma sort_passes_pairwise {α : Type} (cmp : α → α → Int) (S : α → α → Prop)
    (hswap : ∀ a b, 0 < cmp a b → S b a) :
    ∀ (fuel : Nat) (l : List α), l.Pairwise S → (sort_passes cmp fuel l).Pairwise S := by
  intro fuel
  induction fuel with
  | zero => intro l h; exact h
  | succ n ih =>
    intro l h
    rw [sort_passes]
    by_cases hsw : (bubble_pass cmp l).2 = true
    · rw [if_pos hsw]
      exact ih _ (bubble_pass_pairwise cmp S hswap l h)
    · rw [if_neg hsw]
      exact bubble_pass_pairwise cmp S hswap l h

lemma bubble_pass_map_snd_aux {α : Type} (cmp : α → α → Int) :
    ∀ (n : Nat) (t : List (Nat × α)), t.length ≤ n →
      (bubble_pass (fun p q => cmp p.2 q.2) t).1.map Prod.snd =
        (bubble_pass cmp (t.map Prod.snd)).1 ∧
      (bubble_pass (fun p q => cmp p.2 q.2) t).2 =
        (bubble_pass cmp (t.map Prod.snd)).2 := by
  intro n
  induction n with
  | zero =>
    intro t ht
    match t with
    | [] => simp [bubble_pass]
  | succ n ih =>
    intro t ht
    match t with
    | [] => simp [bubble_pass]
    | [p] => simp [bubble_pass]
    | p :: q :: rest =>
      have hlen1 : (p :: rest).length ≤ n := by
        simp only [List.length_cons] at ht ⊢
        omega
      have hlen2 : (q :: rest).length ≤ n := by
        simp only [List.length_cons] at ht ⊢
        omega
      have hmap : (p :: q :: rest).map Prod.snd =
          p.2 :: q.2 :: rest.map Prod.snd := rfl
      by_cases hc : 0 < cmp p.2 q.2
      · rw [bubble_pass, if_pos hc, hmap, bubble_pass, if_pos hc]
        obtain ⟨ih1, _⟩ := ih (p :: rest) hlen1
        constructor
        · simp only [List.map_cons]
          rw [ih1]
          rfl
        · rfl
      · rw [bubble_pass, if_neg hc, hmap, bubble_pass, if_neg hc]
        obtain ⟨ih1, ih2⟩ := ih (q :: rest) hlen2
        constructor
        · simp only [List.map_cons]
          rw [ih1]
          rfl
        · exact ih2

lemma bubble_pass_map_snd {α : Type} (cmp : α → α → Int) (t : List (Nat × α)) :
    (bubble_pass (fun p q => cmp p.2 q.2) t).1.map Prod.snd =
      (bubble_pass cmp (t.map Prod.snd)).1 ∧
    (bubble_pass (fun p q => cmp p.2 q.2) t).2 =
      (bubble_pass cmp (t.map Prod.snd)).2 :=
  bubble_pass_map_snd_aux cmp t.length t (Nat.le_refl _)

lemma inversions_map_snd {α : Type} (cmp : α → α → Int) :
    ∀ t : List (Nat × α),
      inversions (fun p q => cmp p.2 q.2) t = inversions cmp (t.map Prod.snd) := by
  intro t
  induction t with
  | nil => rfl
  | cons p rest ih =>
    simp only [inversions, List.map_cons, ih, List.countP_map]
    rfl

lemma sort_passes_map_snd {α : Type} (cmp : α → α → Int) :
    ∀ (fuel : Nat) (t : List (Nat × α)),
      (sort_passes (fun p q => cmp p.2 q.2) fuel t).map Prod.snd =
        sort_passes cmp fuel (t.map Prod.snd) := by
  intro fuel
  induction fuel with
  | zero => intro t; rfl
  | succ n ih =>
    intro t
    rw [sort_passes, sort_passes]
    obtain ⟨h1, h2⟩ := bubble_pass_map_snd cmp t
    by_cases hsw : (bubble_pass (fun p q => cmp p.2 q.2) t).2 = true
    · rw [if_pos hsw, if_pos (h2 ▸ hsw), ih, h1]
    · have hsw2 : (bubble_pass (fun p q => cmp p.2 q.2) t).2 = false := by
        cases hb : (bubble_pass (fun p q => cmp p.2 q.2) t).2
        · rfl
        · exact absurd hb hsw
      rw [if_neg hsw, if_neg (by rw [← h2, hsw2]; simp), h1]

lemma mem_enumFrom_le {α : Type} :
    ∀ (l : List α) (m : Nat) (q : Nat × α), q ∈ l.enumFrom m → m ≤ q.1 := by
  intro l
  induction l with
  | nil => intro m q hq; simp [List.enumFrom] at hq
  | cons a l ih =>
    intro m q hq
    rw [List.enumFrom] at hq
    rcases List.mem_cons.mp hq with rfl | hq2
    · exact Nat.le_refl m
    · have := ih (m + 1) q hq2
      omega

lemma enumFrom_fst_pairwise {α : Type} :
    ∀ (l : List α) (m : Nat), (l.enumFrom m).Pairwise (fun p q => p.1 < q.1) := by
  intro l
  induction l with
  | nil => intro m; simp [List.enumFrom]
  | cons a l ih =>
    intro m
    rw [List.enumFrom, List.pairwise_cons]
    constructor
    · intro q hq
      have := mem_enumFrom_le l (m + 1) q hq
      simp only
      omega
    · exact ih (m + 1)

lemma chain'_to_pairwise {α : Type} (R : α → α → Prop)
    (tr : ∀ a b c, R a b → R b c → R a c) :
    ∀ l : List α, l.Chain' R → l.Pairwise R := by
  intro l
  induction l with
  | nil => intro _; exact List.Pairwise.nil
  | cons a l ih =>
    intro h
    cases l with
    | nil => simp
    | cons b l2 =>
      rw [List.chain'_cons] at h
      obtain ⟨hab, hch⟩ := h
      have hp := ih hch
      rw [List.pairwise_cons] at hp
      obtain ⟨hb, hp2⟩ := hp
      rw [List.pairwise_cons]
      refine ⟨?_, ?_⟩
      · intro x hx
        rcases List.mem_cons.mp hx with rfl | hx2
        · exact hab
        · exact tr a b x hab (hb x hx2)
      · rw [List.pairwise_cons]
        exact ⟨hb, hp2⟩

/-- C8 (confirmed): on every non-NULL (well-formed) list and non-NULL lawful
comparator (antisymmetric in sign and transitive in its nonpositive part, the
contract of a C comparison function), `sort_list` returns `LIST_SUCCESS` and
leaves the element sequence a permutation of the original that is
nondecreasing under the comparator; the sort is stable: tagging every element
with its original position, the result carries the tags of equal-comparing
elements in increasing order (the adjacent-swap pass only exchanges strictly
greater pairs, never equal ones). -/
theorem sort_list_stable_sorts (α : Type) (st : LinkedList α) (cmp : α → α → Int)
    (hwf : WF st)
    (Hanti : ∀ a b, 0 < cmp a b → cmp b a < 0)
    (Htrans : ∀ a b c, cmp a b ≤ 0 → cmp b c ≤ 0 → cmp a c ≤ 0) :
    (sort_list_impl st cmp).1 = .LIST_SUCCESS ∧
    ((sort_list_impl st cmp).2.elems).Perm st.elems ∧
    ((sort_list_impl st cmp).2.elems).Pairwise (fun a b => cmp a b ≤ 0) ∧
    ∃ t : List (Nat × α), t.map Prod.snd = (sort_list_impl st cmp).2.elems ∧
      t.Perm st.elems.enum ∧
      t.Pairwise (fun p q => cmp p.2 q.2 = 0 → p.1 < q.1) := by
  have hswap : ∀ p q : Nat × α, 0 < cmp p.2 q.2 → (cmp q.2 p.2 = 0 → q.1 < p.1) := by
    intro p q hpq heq
    have := Hanti p.2 q.2 hpq
    omega
  by_cases h1 : st.length ≤ 1
  · rw [sort_list_impl, if_pos h1]
    refine ⟨rfl, List.Perm.refl _, ?_, st.elems.enum, List.enum_map_snd st.elems,
      List.Perm.refl _, ?_⟩
    · rw [WF] at hwf
      cases hel : st.elems with
      | nil => simp
      | cons a l =>
        cases l with
        | nil => simp
        | cons b l2 =>
          rw [hel] at hwf
          simp only [List.length_cons] at hwf
          omega
    · have := enumFrom_fst_pairwise st.elems 0
      rw [← List.enum_eq_enumFrom] at this
      refine List.Pairwise.imp ?_ this
      intro p q hlt _
      exact hlt
  · rw [sort_list_impl, if_neg h1]
    obtain ⟨hperm, hch⟩ :=
      sort_passes_sorted cmp Hanti (inversions cmp st.elems + 1) st.elems (by omega)
    refine ⟨rfl, hperm, chain'_to_pairwise _ Htrans _ hch,
      sort_passes (fun p q : Nat × α => cmp p.2 q.2)
        (inversions cmp st.elems + 1) st.elems.enum, ?_, ?_, ?_⟩
    · rw [sort_passes_map_snd, List.enum_map_snd]
    · have HantiP : ∀ p q : Nat × α, 0 < cmp p.2 q.2 → cmp q.2 p.2 < 0 :=
        fun p q h => Hanti p.2 q.2 h
      have hfuel : inversions (fun p q : Nat × α => cmp p.2 q.2) st.elems.enum <
          inversions cmp st.elems + 1 := by
        rw [inversions_map_snd, List.enum_map_snd]
        omega
      exact (sort_passes_sorted (fun p q : Nat × α => cmp p.2 q.2) HantiP
        (inversions cmp st.elems + 1) st.elems.enum hfuel).1
    · apply sort_passes_pairwise (fun p q : Nat × α => cmp p.2 q.2) _ hswap
      have := enumFrom_fst_pairwise st.elems 0
      rw [← List.enum_eq_enumFrom] at this
      refine List.Pairwise.imp ?_ this
      intro p q hlt _
      exact hlt

/-- Witness for C8 at the concrete list `[3, 1, 2, 1]` with the usual integer
comparator. -/
theorem sort_list_stable_sorts_witness :
    (sort_list_impl wunsorted cmp_nat).1 = .LIST_SUCCESS ∧
    ((sort_list_impl wunsorted cmp_nat).2.elems).Perm wunsorted.elems ∧
    ((sort_list_impl wunsorted cmp_nat).2.elems).Pairwise
      (fun a b => cmp_nat a b ≤ 0) ∧
    ∃ t : List (Nat × Nat), t.map Prod.snd = (sort_list_impl wunsorted cmp_nat).2.elems ∧
      t.Perm wunsorted.elems.enum ∧
      t.Pairwise (fun p q => cmp_nat p.2 q.2 = 0 → p.1 < q.1) :=
  sort_list_stable_sorts Nat wunsorted cmp_nat rfl
    (by intro a b h; simp only [cmp_nat] at h ⊢; omega)
    (by intro a b c h1 h2; simp only [cmp_nat] at h1 h2 ⊢; omega)

/-- Witness for C9 at the int list `[7, 8, 9]` (4-byte elements), checking
also that the file header reports count 3 and that loading with a wrong
element size (8) is rejected. -/
theorem save_load_binary_roundtrip_witness :
    (save_to_file_binary wints).saved_length = 3 ∧
    ((save_to_file_binary wints).saved_length = wints.length ∧
     (save_to_file_binary wints).saved_element_size = wints.element_size ∧
     (save_to_file_binary wints).payload = wints.elems.flatten ∧
     (8 ≠ wints.element_size → load_from_file_binary (save_to_file_binary wints) 8 = none) ∧
     ∃ st2, load_from_file_binary (save_to_file_binary wints) wints.element_size = some st2 ∧
       st2.elems = wints.elems) :=
  ⟨by decide, save_load_binary_roundtrip wints 8 rfl (by decide) (by decide)⟩

end CLinkedList
